import Mathlib

/-!
Verification development for the EO-tutorials notebook (Tutorial_01.ipynb).

The notebook is a linear script: extract the bounds of the last drawn
geometry, query a STAC catalog for asset URLs, compute a pixel window with
rasterio.windows.from_bounds against the first raster, windowed-read each
raster with xarray, concatenate the reads along a time axis, and hand the
result to an xcube viewer.  The development below embeds that script
shallowly: rationals stand for the float coordinates, Python list slicing
and int() truncation are modelled exactly, the external world (drawn
geometries, the catalog, the remote rasters) is an environment, and each
notebook cell is a state transformer in the Except monad so that raised
exceptions propagate as the notebook would propagate them.
-/

namespace EOTut

/-- Python int() applied to a rational: truncation toward zero. -/
def pyInt (q : ℚ) : ℤ := if 0 ≤ q then ⌊q⌋ else ⌈q⌉

/-- normalisation of one slice bound for step 1, as CPython does it:
a negative index counts from the end and clamps at 0, a nonnegative
index clamps at the length. -/
def pyBound (n : ℕ) (i : ℤ) : ℕ := if i < 0 then (i + n).toNat else min i.toNat n

/-- Python list slicing l[a:b] with step 1. -/
def pySlice (a b : ℤ) (l : List α) : List α :=
  let s := pyBound l.length a
  let e := pyBound l.length b
  (l.drop s).take (e - s)

/-- str.split on a single separator character, CPython semantics:
adjacent separators produce empty fields. -/
def splitChar (sep : Char) : List Char → List Char → List (List Char)
  | [], acc => [acc.reverse]
  | c :: rest, acc =>
      if c = sep then acc.reverse :: splitChar sep rest []
      else splitChar sep rest (c :: acc)

/-- file_url.split with separator underscore, field i.  The notebook only
indexes fields that exist; an out-of-range index is modelled as the empty
field. -/
def splitField (s : String) (i : ℕ) : List Char :=
  (splitChar '_' s.toList []).getD i []

/-- decimal digits to a natural number, as pandas parses a yyyymmdd
timestamp string.  A date is modelled as the number yyyymmdd, whose
numeric order coincides with chronological order. -/
def parseNatC (l : List Char) : ℕ := l.foldl (fun a c => a * 10 + (c.toNat - 48)) 0

/-- the Dec-31 year-end date of a year, in yyyymmdd encoding. -/
def yearEnd (y : ℕ) : ℕ := y * 10000 + 1231

/-- pandas.date_range(start, end, freq = Y): the year-end dates lying in
the closed interval from start to end. -/
def dateRangeY (s e : ℕ) : List ℕ :=
  ((List.range' (s / 10000) (e / 10000 + 1 - s / 10000)).map yearEnd).filter
    (fun d => decide (s ≤ d ∧ d ≤ e))

/-- the time coordinates read_raster attaches to a file: date_range with
freq = Y over underscore-separated fields 5 and 6 of the URL. -/
def rasterDates (file_url : String) : List ℕ :=
  dateRangeY (parseNatC (splitField file_url 5)) (parseNatC (splitField file_url 6))

/-- a drawn geometry, reduced to its coordinate list. -/
structure Geom where
  pts : List (ℚ × ℚ)
deriving DecidableEq, Repr

/-- shapely geometry.bounds: (minx, miny, maxx, maxy) over the coordinates. -/
def boundsOf (g : Geom) : ℚ × ℚ × ℚ × ℚ :=
  let xs := g.pts.map Prod.fst
  let ys := g.pts.map Prod.snd
  (xs.foldl min (xs.headD 0), ys.foldl min (ys.headD 0),
   xs.foldl max (xs.headD 0), ys.foldl max (ys.headD 0))

/-- a north-up affine transform (a, 0, c; 0, e, f);
rasterio.windows.from_bounds rejects rotated transforms, so only these
four coefficients matter. -/
structure Affine where
  a : ℚ
  c : ℚ
  e : ℚ
  f : ℚ
deriving DecidableEq, Repr

/-- a rasterio window: four numeric offsets. -/
structure Window where
  col_off : ℚ
  row_off : ℚ
  width : ℚ
  height : ℚ
deriving DecidableEq, Repr

/-- rasterio.windows.from_bounds(left, bottom, right, top, transform):
inverse-transform the top-left and bottom-right corners to fractional
pixel coordinates; the extents are the coordinate differences. -/
def from_bounds (left bottom right top : ℚ) (t : Affine) : Window :=
  { col_off := (left - t.c) / t.a
    row_off := (top - t.f) / t.e
    width := (right - t.c) / t.a - (left - t.c) / t.a
    height := (bottom - t.f) / t.e - (top - t.f) / t.e }

/-- one opened raster: grid size, band values indexed [row][col], the affine
transform, and the band statistics rasterio reports for band 1. -/
structure Raster where
  nx : ℕ
  ny : ℕ
  pix : List (List ℤ)
  transform : Affine
  statMin : ℚ
  statMax : ℚ
deriving DecidableEq, Repr

/-- the fields of src.statistics(1) the notebook uses. -/
structure Stats where
  min : ℚ
  max : ℚ
deriving DecidableEq, Repr

/-- an xarray dataset before expand_dims: x and y coordinate positions and
band values indexed [y][x]. -/
structure Frame where
  xs : List ℕ
  ys : List ℕ
  vals : List (List ℤ)
deriving DecidableEq, Repr

/-- xarray.open_dataset of a raster file: the full grid, no time dimension. -/
def openFrame (r : Raster) : Frame :=
  { xs := List.range r.nx, ys := List.range r.ny, vals := r.pix }

/-- Frame.isel with integer slices x0:x1 on x and y0:y1 on y. -/
def iselFrame (fr : Frame) (x0 x1 y0 y1 : ℤ) : Frame :=
  { xs := pySlice x0 x1 fr.xs
    ys := pySlice y0 y1 fr.ys
    vals := (pySlice y0 y1 fr.vals).map (pySlice x0 x1) }

/-- a time-stacked dataset: time coordinates plus one frame of values per
time step. -/
structure Dataset where
  time : List ℕ
  xs : List ℕ
  ys : List ℕ
  data : List (List (List ℤ))
deriving DecidableEq, Repr

/-- expand_dims(time = dates): replicate the frame once per date. -/
def expandTime (fr : Frame) (dates : List ℕ) : Dataset :=
  { time := dates, xs := fr.xs, ys := fr.ys, data := dates.map (fun _ => fr.vals) }

/-- xarray.concat([a, b], dim = time) for datasets on one spatial grid:
append along the time dimension. -/
def concatTime (a b : Dataset) : Dataset :=
  { time := a.time ++ b.time, xs := a.xs, ys := a.ys, data := a.data ++ b.data }

/-- the notebook helper read_raster applied to an already-opened raster:
windowed isel when a window is passed (Python int() truncation on the
fractional offsets), the whole grid otherwise, then expand_dims with the
year-end dates taken from the URL fields. -/
def read_raster_of (r : Raster) (file_url : String) (window : Option Window) : Dataset :=
  let d := match window with
    | some w => iselFrame (openFrame r)
        (pyInt w.col_off) (pyInt (w.col_off + w.width))
        (pyInt w.row_off) (pyInt (w.row_off + w.height))
    | none => openFrame r
  expandTime d (rasterDates file_url)

/-- one entry of an item assets dict: key and href (the other dict entries
are unused by the notebook). -/
structure Asset where
  key : String
  href : String
deriving DecidableEq, Repr

/-- a STAC item, reduced to its assets dict; dict keys are distinct. -/
structure Item where
  assets : List Asset
deriving DecidableEq, Repr

/-- a STAC collection: its id and its items. -/
structure Collection where
  id : String
  items : List Item
deriving DecidableEq, Repr

abbrev Catalog := List Collection

def target_collection : String := "wv_mcd19a2v061.seasconv.m.yearly"

def target_item : String := "wv_mcd19a2v061.seasconv.m.yearly_p75_1km_s"

/-- the catalog-query loop of cell 9: for every collection whose id equals
the target collection, for every item, for every asset key equal to the
target item, append that asset href to file_store. -/
def fileStoreLoop (catalog : Catalog) (tc ti : String) : List String :=
  catalog.foldl (fun fs collection =>
    if collection.id = tc then
      collection.items.foldl (fun fs item =>
        item.assets.foldl (fun fs a => if a.key = ti then fs ++ [a.href] else fs) fs) fs
    else fs) []

/-- exceptions the notebook can raise or see raised. -/
inductive PyErr where
  | indexError
  | nameError
  | libError (msg : String)
deriving DecidableEq, Repr

/-- the world outside the notebook: the geometries drawn on the map widget,
the result of opening the catalog, and the result of opening each raster
URL (an error value models the library raising). -/
structure Env where
  drawData : List Geom
  openCatalog : Except PyErr Catalog
  openRaster : String → Except PyErr Raster

/-- read_raster as run in the notebook: open the URL remotely, then subset
and time-stack; a failed open propagates. -/
def read_raster (env : Env) (file_url : String) (window : Option Window) :
    Except PyErr Dataset :=
  (env.openRaster file_url).map (fun r => read_raster_of r file_url window)

/-- the notebook variables, each none until its cell has assigned it. -/
structure NBState where
  geometry : Option Geom := none
  bounds : Option (ℚ × ℚ × ℚ × ℚ) := none
  file_store : Option (List String) := none
  window : Option Window := none
  stats : Option Stats := none
  first_run : Option Bool := none
  d : Option Dataset := none
  datacube : Option Dataset := none
  viewerRange : Option (ℚ × ℚ) := none
  viewed : Option Dataset := none
deriving DecidableEq, Repr

/-- reading a notebook variable raises NameError when it is unassigned. -/
def readVar (v : Option α) : Except PyErr α :=
  match v with
  | none => .error .nameError
  | some a => .ok a

/-- cell 7: geometry = shape of draw_control.data[-1]; bounds =
geometry.bounds.  Indexing [-1] on an empty list raises IndexError; only
the last drawn geometry is used. -/
def cell7 (env : Env) (s : NBState) : Except PyErr NBState :=
  match env.drawData.getLast? with
  | none => .error .indexError
  | some g => .ok { s with geometry := some g, bounds := some (boundsOf g) }

/-- cell 9: open the catalog and run the asset-collecting loop. -/
def cell9 (env : Env) (s : NBState) : Except PyErr NBState :=
  (env.openCatalog).map (fun catalog =>
    { s with file_store := some (fileStoreLoop catalog target_collection target_item) })

/-- cell 13: open file_store[0], compute the window by from_bounds over the
bounds tuple in (minx, miny, maxx, maxy) order against that transform, and
take the band statistics. -/
def cell13 (env : Env) (s : NBState) : Except PyErr NBState := do
  let fs ← readVar s.file_store
  match fs.head? with
  | none => .error .indexError
  | some f0 => do
      let src ← env.openRaster f0
      let b ← readVar s.bounds
      .ok { s with
        window := some (from_bounds b.1 b.2.1 b.2.2.1 b.2.2.2 src.transform)
        stats := some ⟨src.statMin, src.statMax⟩ }

/-- the cell 16 loop body over the (first_run, d, datacube) variables: on
the first pass assign the read to datacube and lower the flag; afterwards
read into d and concatenate onto datacube along time. -/
def cubeStep (env : Env) (wv : Option Window)
    (st : Bool × Option Dataset × Option Dataset) (f : String) :
    Except PyErr (Bool × Option Dataset × Option Dataset) :=
  match st with
  | (true, dv, _) => do
      let w ← readVar wv
      let x ← read_raster env f (some w)
      .ok (false, dv, some x)
  | (false, _, dcOpt) => do
      let w ← readVar wv
      let x ← read_raster env f (some w)
      let dc ← readVar dcOpt
      .ok (false, some x, some (concatTime dc x))

/-- cell 16: first_run = True, then the read-and-concat loop over
file_store. -/
def cell16 (env : Env) (s : NBState) : Except PyErr NBState := do
  let fs ← readVar s.file_store
  let st ← fs.foldlM (cubeStep env s.window) (true, s.d, s.datacube)
  .ok { s with first_run := some st.1, d := st.2.1, datacube := st.2.2 }

/-- cell 17: build the viewer; its colour mapping ranges over stats.min to
stats.max. -/
def cell17 (s : NBState) : Except PyErr NBState := do
  let st ← readVar s.stats
  .ok { s with viewerRange := some (st.min, st.max) }

/-- cell 18: viewer.add_dataset(datacube) hands the datacube to the viewer. -/
def cell18 (s : NBState) : Except PyErr NBState := do
  let dc ← readVar s.datacube
  .ok { s with viewed := some dc }

/-- the whole notebook, run in cell order from an empty variable table. -/
def script (env : Env) : Except PyErr NBState := do
  let s1 ← cell7 env {}
  let s2 ← cell9 env s1
  let s3 ← cell13 env s2
  let s4 ← cell16 env s3
  let s5 ← cell17 s4
  cell18 s5

/-! Helper lemmas about the catalog-query loop. -/

/-- declarative form of the asset scan of one item. -/
def itemHrefs (ti : String) (item : Item) : List String :=
  (item.assets.filter (fun a => a.key = ti)).map Asset.href

/-- declarative form of the whole catalog scan. -/
def catalogHrefs (catalog : Catalog) (tc ti : String) : List String :=
  (catalog.filter (fun c => c.id = tc)).flatMap
    (fun c => c.items.flatMap (fun item => itemHrefs ti item))

theorem assets_foldl_eq (ti : String) (as : List Asset) (fs : List String) :
    as.foldl (fun fs a => if a.key = ti then fs ++ [a.href] else fs) fs
      = fs ++ (as.filter (fun a => a.key = ti)).map Asset.href := by
  induction as generalizing fs with
  | nil => simp
  | cons a rest ih =>
      by_cases h : a.key = ti <;> simp [List.foldl_cons, h, ih]

theorem items_foldl_eq (ti : String) (items : List Item) (fs : List String) :
    items.foldl (fun fs item =>
        item.assets.foldl (fun fs a => if a.key = ti then fs ++ [a.href] else fs) fs) fs
      = fs ++ items.flatMap (fun item => itemHrefs ti item) := by
  induction items generalizing fs with
  | nil => simp
  | cons item rest ih =>
      rw [List.foldl_cons, assets_foldl_eq, ih]
      simp [itemHrefs, List.append_assoc]

theorem catalog_foldl_eq (tc ti : String) (catalog : Catalog) (fs : List String) :
    catalog.foldl (fun fs collection =>
      if collection.id = tc then
        collection.items.foldl (fun fs item =>
          item.assets.foldl (fun fs a => if a.key = ti then fs ++ [a.href] else fs) fs) fs
      else fs) fs
      = fs ++ catalogHrefs catalog tc ti := by
  induction catalog generalizing fs with
  | nil => simp [catalogHrefs]
  | cons c rest ih =>
      by_cases h : c.id = tc
      · rw [List.foldl_cons, if_pos h, items_foldl_eq, ih]
        simp [catalogHrefs, h, List.append_assoc]
      · rw [List.foldl_cons, if_neg h, ih]
        simp [catalogHrefs, h]

theorem fileStoreLoop_eq (catalog : Catalog) (tc ti : String) :
    fileStoreLoop catalog tc ti = catalogHrefs catalog tc ti := by
  simpa [fileStoreLoop] using catalog_foldl_eq tc ti catalog []

/-- C3: after the catalog-query loop, file_store holds exactly the href of
every asset whose key equals target_item, over the items of every collection
whose id equals target_collection, in catalog iteration order; other keys
and other collections contribute nothing. -/
theorem C3_file_store_contents (catalog : Catalog) (tc ti : String) :
    fileStoreLoop catalog tc ti
      = (catalog.filter (fun c => c.id = tc)).flatMap
          (fun c => c.items.flatMap
            (fun item => (item.assets.filter (fun a => a.key = ti)).map Asset.href)) :=
  fileStoreLoop_eq catalog tc ti

/-! Helper lemmas about the cell 16 read-and-concat loop. -/

/-- the dataset the loop reads for one file, given the opened rasters. -/
def readOf (rf : String → Raster) (w : Window) (f : String) : Dataset :=
  read_raster_of (rf f) f (some w)

theorem exbind_ok (a : α) (f : α → Except PyErr β) :
    ((Except.ok a : Except PyErr α) >>= f) = f a := rfl

theorem exbind_err (e : PyErr) (f : α → Except PyErr β) :
    ((Except.error e : Except PyErr α) >>= f) = .error e := rfl

theorem read_raster_ok (env : Env) (rf : String → Raster) (f : String) (w : Option Window)
    (h : env.openRaster f = .ok (rf f)) :
    read_raster env f w = .ok (read_raster_of (rf f) f w) := by
  simp [read_raster, h, Except.map]

/-- stepping the loop from a lowered flag and an assigned datacube folds
concat over the remaining reads. -/
theorem cubeLoop_false (env : Env) (w : Window) (rf : String → Raster) :
    ∀ (fs : List String), (∀ f ∈ fs, env.openRaster f = .ok (rf f)) →
    ∀ (dv : Option Dataset) (c : Dataset),
    ∃ dv2, fs.foldlM (cubeStep env (some w)) (false, dv, some c)
      = .ok (false, dv2, some ((fs.map (readOf rf w)).foldl concatTime c)) := by
  intro fs
  induction fs with
  | nil => exact fun _ dv c => ⟨dv, rfl⟩
  | cons f rest ih =>
      intro h dv c
      have hf : env.openRaster f = .ok (rf f) := h f (List.mem_cons_self f rest)
      have hx := read_raster_ok env rf f (some w) hf
      obtain ⟨dv2, hrest⟩ := ih (fun g hg => h g (List.mem_cons_of_mem f hg))
        (some (readOf rf w f)) (concatTime c (readOf rf w f))
      refine ⟨dv2, ?_⟩
      rw [List.foldlM_cons]
      simp only [cubeStep, readVar, exbind_ok, hx, readOf] at hrest ⊢
      rw [hrest]
      simp [readOf]

/-- from the raised flag, a nonempty loop lowers the flag on the first file
and then folds concat over the remaining reads. -/
theorem cubeLoop_cons (env : Env) (w : Window) (rf : String → Raster)
    (f0 : String) (rest : List String)
    (h : ∀ f ∈ f0 :: rest, env.openRaster f = .ok (rf f))
    (dv dc : Option Dataset) :
    ∃ dv2, (f0 :: rest).foldlM (cubeStep env (some w)) (true, dv, dc)
      = .ok (false, dv2, some ((rest.map (readOf rf w)).foldl concatTime (readOf rf w f0))) := by
  have hf : env.openRaster f0 = .ok (rf f0) := h f0 (List.mem_cons_self f0 rest)
  have hx := read_raster_ok env rf f0 (some w) hf
  obtain ⟨dv2, hrest⟩ := cubeLoop_false env w rf rest
    (fun g hg => h g (List.mem_cons_of_mem f0 hg)) dv (readOf rf w f0)
  refine ⟨dv2, ?_⟩
  rw [List.foldlM_cons]
  simp only [cubeStep, readVar, exbind_ok, hx, readOf] at hrest ⊢
  rw [hrest]

/-- C8: when every raster opens, the first_run/concat loop is a left fold of
concat over the windowed reads in file_store order, and an empty file_store
assigns no datacube (the loop state is unchanged). -/
theorem C8_loop_is_left_fold (env : Env) (w : Window) (rf : String → Raster)
    (fs : List String) (h : ∀ f ∈ fs, env.openRaster f = .ok (rf f)) :
    (fs = [] → fs.foldlM (cubeStep env (some w)) (true, none, none) = .ok (true, none, none))
    ∧ ∀ f0 rest, fs = f0 :: rest →
        ∃ dv, fs.foldlM (cubeStep env (some w)) (true, none, none)
          = .ok (false, dv,
              some ((rest.map (readOf rf w)).foldl concatTime (readOf rf w f0))) := by
  constructor
  · intro hfs; subst hfs; rfl
  · intro f0 rest hfs
    subst hfs
    exact cubeLoop_cons env w rf f0 rest h none none

/-! Success characterisations of the individual cells and of the script. -/

theorem exbind_ok_iff {x : Except PyErr α} {f : α → Except PyErr β} {b : β} :
    (x >>= f) = .ok b ↔ ∃ a, x = .ok a ∧ f a = .ok b := by
  cases x with
  | ok a => simp [exbind_ok]
  | error e => simp [exbind_err]

theorem cell7_ok {env : Env} {s s1 : NBState} (h : cell7 env s = .ok s1) :
    ∃ g, env.drawData.getLast? = some g ∧
      s1 = { s with geometry := some g, bounds := some (boundsOf g) } := by
  unfold cell7 at h
  cases hg : env.drawData.getLast? with
  | none => rw [hg] at h; exact absurd h (by simp)
  | some g => rw [hg] at h; exact ⟨g, rfl, (Except.ok.inj h).symm⟩

theorem cell9_ok {env : Env} {s s1 : NBState} (h : cell9 env s = .ok s1) :
    ∃ cat, env.openCatalog = .ok cat ∧
      s1 = { s with
        file_store := some (fileStoreLoop cat target_collection target_item) } := by
  unfold cell9 at h
  cases hc : env.openCatalog with
  | error e => rw [hc] at h; exact absurd h (by simp [Except.map])
  | ok cat =>
      rw [hc] at h
      simp only [Except.map] at h
      exact ⟨cat, rfl, (Except.ok.inj h).symm⟩

theorem cell13_ok {env : Env} {s s1 : NBState} (h : cell13 env s = .ok s1) :
    ∃ fs f0 src b, s.file_store = some fs ∧ fs.head? = some f0 ∧
      env.openRaster f0 = .ok src ∧ s.bounds = some b ∧
      s1 = { s with
        window := some (from_bounds b.1 b.2.1 b.2.2.1 b.2.2.2 src.transform)
        stats := some ⟨src.statMin, src.statMax⟩ } := by
  unfold cell13 at h
  cases hfs : s.file_store with
  | none => rw [hfs] at h; exact absurd h (by simp [readVar, exbind_err])
  | some fs =>
    rw [hfs] at h
    simp only [readVar, exbind_ok] at h
    cases hh : fs.head? with
    | none => rw [hh] at h; exact absurd h (by simp)
    | some f0 =>
      rw [hh] at h
      dsimp only at h
      cases hr : env.openRaster f0 with
      | error e => rw [hr] at h; exact absurd h (by simp [exbind_err])
      | ok src =>
        rw [hr] at h
        simp only [exbind_ok] at h
        cases hb : s.bounds with
        | none => rw [hb] at h; exact absurd h (by simp [readVar, exbind_err])
        | some b =>
          rw [hb] at h
          simp only [readVar, exbind_ok] at h
          refine ⟨fs, f0, src, b, ?_, ?_, ?_, ?_, (Except.ok.inj h).symm⟩ <;>
            simp [hfs, hh, hr, hb]

theorem cell16_ok {env : Env} {s s1 : NBState} (h : cell16 env s = .ok s1) :
    ∃ fs st, s.file_store = some fs ∧
      fs.foldlM (cubeStep env s.window) (true, s.d, s.datacube) = .ok st ∧
      s1 = { s with first_run := some st.1, d := st.2.1, datacube := st.2.2 } := by
  unfold cell16 at h
  cases hfs : s.file_store with
  | none => rw [hfs] at h; exact absurd h (by simp [readVar, exbind_err])
  | some fs =>
    rw [hfs] at h
    simp only [readVar, exbind_ok] at h
    cases hst : fs.foldlM (cubeStep env s.window) (true, s.d, s.datacube) with
    | error e => rw [hst] at h; exact absurd h (by simp [exbind_err])
    | ok st =>
      rw [hst] at h
      simp only [exbind_ok] at h
      refine ⟨fs, st, ?_, ?_, (Except.ok.inj h).symm⟩ <;> simp [hfs, hst]

theorem cell17_ok {s s1 : NBState} (h : cell17 s = .ok s1) :
    ∃ st, s.stats = some st ∧
      s1 = { s with viewerRange := some (st.min, st.max) } := by
  unfold cell17 at h
  cases hst : s.stats with
  | none => rw [hst] at h; exact absurd h (by simp [readVar, exbind_err])
  | some st =>
    rw [hst] at h
    simp only [readVar, exbind_ok] at h
    exact ⟨st, rfl, (Except.ok.inj h).symm⟩

theorem cell18_ok {s s1 : NBState} (h : cell18 s = .ok s1) :
    ∃ dc, s.datacube = some dc ∧ s1 = { s with viewed := some dc } := by
  unfold cell18 at h
  cases hdc : s.datacube with
  | none => rw [hdc] at h; exact absurd h (by simp [readVar, exbind_err])
  | some dc =>
    rw [hdc] at h
    simp only [readVar, exbind_ok] at h
    exact ⟨dc, rfl, (Except.ok.inj h).symm⟩

/-- a successful script run factors through a successful run of every cell,
in cell order. -/
theorem script_ok {env : Env} {s5 : NBState} (h : script env = .ok s5) :
    ∃ s1 s2 s3 s4 s4b,
      cell7 env {} = .ok s1 ∧ cell9 env s1 = .ok s2 ∧ cell13 env s2 = .ok s3 ∧
      cell16 env s3 = .ok s4 ∧ cell17 s4 = .ok s4b ∧ cell18 s4b = .ok s5 := by
  unfold script at h
  obtain ⟨s1, h1, h⟩ := exbind_ok_iff.mp h
  obtain ⟨s2, h2, h⟩ := exbind_ok_iff.mp h
  obtain ⟨s3, h3, h⟩ := exbind_ok_iff.mp h
  obtain ⟨s4, h4, h⟩ := exbind_ok_iff.mp h
  obtain ⟨s4b, h5, h⟩ := exbind_ok_iff.mp h
  exact ⟨s1, s2, s3, s4, s4b, h1, h2, h3, h4, h5, h⟩

/-- full shape of a successful notebook run: every variable of the final
state, expressed from the environment. -/
theorem script_ok_shape {env : Env} {s : NBState} (h : script env = .ok s) :
    ∃ g cat f0 src w st dc,
      env.drawData.getLast? = some g ∧
      env.openCatalog = .ok cat ∧
      (fileStoreLoop cat target_collection target_item).head? = some f0 ∧
      env.openRaster f0 = .ok src ∧
      w = from_bounds (boundsOf g).1 (boundsOf g).2.1 (boundsOf g).2.2.1
            (boundsOf g).2.2.2 src.transform ∧
      (fileStoreLoop cat target_collection target_item).foldlM
        (cubeStep env (some w)) (true, none, none) = .ok st ∧
      st.2.2 = some dc ∧
      s = { geometry := some g
            bounds := some (boundsOf g)
            file_store := some (fileStoreLoop cat target_collection target_item)
            window := some w
            stats := some ⟨src.statMin, src.statMax⟩
            first_run := some st.1
            d := st.2.1
            datacube := some dc
            viewerRange := some (src.statMin, src.statMax)
            viewed := some dc } := by
  obtain ⟨s1, s2, s3, s4, s4b, h1, h2, h3, h4, h5, h6⟩ := script_ok h
  obtain ⟨g, hg, e1⟩ := cell7_ok h1
  subst e1
  obtain ⟨cat, hcat, e2⟩ := cell9_ok h2
  subst e2
  obtain ⟨fs, f0, src, b, hfs, hh, hr, hb, e3⟩ := cell13_ok h3
  simp only [Option.some.injEq] at hfs hb
  subst hfs
  subst hb
  subst e3
  obtain ⟨fs2, st, hfs2, hst, e4⟩ := cell16_ok h4
  simp only [Option.some.injEq] at hfs2
  subst hfs2
  subst e4
  obtain ⟨stt, hstat, e5⟩ := cell17_ok h5
  simp only [Option.some.injEq] at hstat
  subst hstat
  subst e5
  obtain ⟨dc, hdc, e6⟩ := cell18_ok h6
  subst e6
  refine ⟨g, cat, f0, src, _, st, dc, hg, hcat, hh, hr, rfl, ?_, ?_, ?_⟩
  · exact hst
  · exact hdc
  · simp only at hdc
    simp [hdc]

theorem foldl_concatTime_time (ds : List Dataset) (c : Dataset) :
    (ds.foldl concatTime c).time = c.time ++ ds.flatMap Dataset.time := by
  induction ds generalizing c with
  | nil => simp
  | cons d rest ih => simp [List.foldl_cons, ih, concatTime, List.append_assoc]

theorem read_raster_of_time (r : Raster) (u : String) (w : Option Window) :
    (read_raster_of r u w).time = rasterDates u := by
  cases w <;> rfl

theorem flatMap_dates_length (fs : List String)
    (h : ∀ f ∈ fs, (rasterDates f).length = 1) :
    (fs.flatMap rasterDates).length = fs.length := by
  induction fs with
  | nil => rfl
  | cons f rest ih =>
      have h1 := h f (List.mem_cons_self f rest)
      have h2 := ih (fun g hg => h g (List.mem_cons_of_mem f hg))
      simp [List.flatMap_cons, h1, h2]
      omega

/-- C2: the pixel window is the single from_bounds value over the drawn
bounding box in (minx, miny, maxx, maxy) order and the transform of the
first raster of file_store, and that one window parameterises the whole
read-and-concat loop. -/
theorem C2_window_once (env : Env) (s : NBState) (h : script env = .ok s) :
    ∃ fs f0 src w b st,
      s.file_store = some fs ∧ fs.head? = some f0 ∧ env.openRaster f0 = .ok src ∧
      s.bounds = some b ∧
      w = from_bounds b.1 b.2.1 b.2.2.1 b.2.2.2 src.transform ∧
      s.window = some w ∧
      fs.foldlM (cubeStep env (some w)) (true, none, none) = .ok st ∧
      s.datacube = st.2.2 := by
  obtain ⟨g, cat, f0, src, w, st, dc, hg, hcat, hh, hr, hw, hst, hdc, hs⟩ := script_ok_shape h
  subst hs
  exact ⟨_, f0, src, w, boundsOf g, st, rfl, hh, hr, rfl, hw, rfl, hst, hdc.symm⟩

/-- C6: a successful run passes through every step in the fixed order
bounds, catalog query, asset listing, window, read-and-concat loop, viewer
construction, add_dataset, and hands exactly the concatenated datacube to
the viewer. -/
theorem C6_linear_pipeline (env : Env) (s : NBState) (h : script env = .ok s) :
    ∃ g cat f0 src st,
      env.drawData.getLast? = some g ∧
      env.openCatalog = .ok cat ∧
      s.bounds = some (boundsOf g) ∧
      s.file_store = some (fileStoreLoop cat target_collection target_item) ∧
      (fileStoreLoop cat target_collection target_item).head? = some f0 ∧
      env.openRaster f0 = .ok src ∧
      s.window = some (from_bounds (boundsOf g).1 (boundsOf g).2.1 (boundsOf g).2.2.1
        (boundsOf g).2.2.2 src.transform) ∧
      s.stats = some ⟨src.statMin, src.statMax⟩ ∧
      (fileStoreLoop cat target_collection target_item).foldlM
        (cubeStep env s.window) (true, none, none) = .ok st ∧
      s.viewerRange = some (src.statMin, src.statMax) ∧
      ∃ dc, st.2.2 = some dc ∧ s.datacube = some dc ∧ s.viewed = some dc := by
  obtain ⟨g, cat, f0, src, w, st, dc, hg, hcat, hh, hr, hw, hst, hdc, hs⟩ := script_ok_shape h
  subst hs
  subst hw
  exact ⟨g, cat, f0, src, st, hg, hcat, rfl, rfl, hh, hr, rfl, rfl, hst, rfl, dc, hdc, rfl, rfl⟩

/-- C1: when every raster opens and every URL carries a one-year date span,
the datacube handed to the viewer has one time coordinate per file of
file_store, in file_store order, each the single year-end date of that
file, so the time dimension has length exactly the length of file_store. -/
theorem flatMap_time_map (rf : String → Raster) (w : Window) (l : List String) :
    (l.map (readOf rf w)).flatMap Dataset.time = l.flatMap rasterDates := by
  induction l with
  | nil => rfl
  | cons f rest ih =>
      simp [List.map_cons, List.flatMap_cons, ih, readOf, read_raster_of_time]

theorem C1_time_stack (env : Env) (s : NBState) (fs : List String) (rf : String → Raster)
    (h : script env = .ok s) (hfs : s.file_store = some fs)
    (hopen : ∀ f ∈ fs, env.openRaster f = .ok (rf f))
    (hdates : ∀ f ∈ fs, (rasterDates f).length = 1) :
    ∃ dc, s.viewed = some dc ∧ dc.time = fs.flatMap rasterDates ∧
      dc.time.length = fs.length := by
  obtain ⟨g, cat, f0, src, w, st, dc, hg, hcat, hh, hr, hw, hst, hdc, hs⟩ := script_ok_shape h
  subst hs
  simp only [Option.some.injEq] at hfs
  subst hfs
  cases hL : fileStoreLoop cat target_collection target_item with
  | nil => rw [hL] at hh; cases hh
  | cons f0b rest =>
      rw [hL] at hh hst hopen hdates
      obtain ⟨dv2, hloop⟩ := cubeLoop_cons env w rf f0b rest hopen none none
      rw [hloop] at hst
      have hst2 := Except.ok.inj hst
      rw [← hst2] at hdc
      dsimp only at hdc
      have hdceq : dc = (rest.map (readOf rf w)).foldl concatTime (readOf rf w f0b) :=
        (Option.some.inj hdc).symm
      have htime : dc.time = (f0b :: rest).flatMap rasterDates := by
        rw [hdceq, foldl_concatTime_time, flatMap_time_map]
        simp [readOf, read_raster_of_time, List.flatMap_cons]
      exact ⟨dc, rfl, htime, by rw [htime]; exact flatMap_dates_length _ hdates⟩

/-! Arithmetic helpers for the slice analysis. -/

theorem pyInt_intCast (z : ℤ) : pyInt (z : ℚ) = z := by
  unfold pyInt
  split
  · exact Int.floor_intCast z
  · exact Int.ceil_intCast z

theorem take_range2 (k : ℕ) : ∀ (s m : ℕ),
    (List.range' s k).take m = List.range' s (min m k) := by
  induction k with
  | zero => intro s m; simp
  | succ k ih =>
      intro s m
      cases m with
      | zero => simp
      | succ m =>
          rw [List.range'_succ, List.take_succ_cons, ih]
          rw [show min (m + 1) (k + 1) = min m k + 1 by omega, List.range'_succ]

theorem drop_range2 (k : ℕ) : ∀ (s m : ℕ),
    (List.range' s k).drop m = List.range' (s + m) (k - m) := by
  induction k with
  | zero => intro s m; simp
  | succ k ih =>
      intro s m
      cases m with
      | zero => simp
      | succ m =>
          rw [List.range'_succ, List.drop_succ_cons, ih]
          rw [show s + 1 + m = s + (m + 1) by omega, Nat.succ_sub_succ]

/-- Python slicing of the coordinate list range nx by in-range integer
bounds selects exactly the positions from the lower bound (inclusive) to
the upper bound (exclusive). -/
theorem pySlice_range (n : ℕ) (a b : ℤ) (ha : 0 ≤ a) (hab : a ≤ b) (hbn : b ≤ (n : ℤ)) :
    pySlice a b (List.range n) = List.range' a.toNat (b.toNat - a.toNat) := by
  unfold pySlice pyBound
  dsimp only
  rw [if_neg (by omega), if_neg (by omega), List.length_range]
  rw [List.range_eq_range', drop_range2, take_range2]
  have h1 : min a.toNat n = a.toNat := by omega
  have h2 : min b.toNat n = b.toNat := by omega
  rw [h1, h2]
  rw [show (0 + a.toNat) = a.toNat by omega]
  rw [show min (b.toNat - a.toNat) (n - a.toNat) = b.toNat - a.toNat by omega]

/-- C9: the bounds cell needs at least one drawn geometry: an empty draw
list raises IndexError, and otherwise only the most recently drawn
geometry determines the bounds, earlier ones being ignored. -/
theorem C9_last_drawn_geometry (env : Env) (s : NBState) :
    (env.drawData = [] → cell7 env s = .error .indexError)
    ∧ ∀ (l : List Geom) (g : Geom), env.drawData = l ++ [g] →
        cell7 env s = .ok { s with geometry := some g, bounds := some (boundsOf g) } := by
  constructor
  · intro h; simp [cell7, h]
  · intro l g h
    simp [cell7, h, List.getLast?_concat]

/-- C10: the datacube-building cell only ever assigns first_run, d and
datacube: a successful run of cell 16 leaves bounds, file_store, window,
stats and all other earlier variables unchanged. -/
theorem C10_datacube_frame (env : Env) (s t : NBState) (h : cell16 env s = .ok t) :
    t.bounds = s.bounds ∧ t.file_store = s.file_store ∧ t.window = s.window ∧
    t.stats = s.stats ∧ t.geometry = s.geometry ∧ t.viewerRange = s.viewerRange ∧
    t.viewed = s.viewed := by
  obtain ⟨fs, st, hfs, hst, e⟩ := cell16_ok h
  subst e
  simp

/-- C5, amended: with no window read_raster keeps the whole grid, and with
a window whose truncated bounds lie inside the grid it selects exactly the
x positions from int col_off (inclusive) to int (col_off + width)
(exclusive) and likewise for y; outside the grid Python slice clamping
applies instead. -/
theorem C5_windowed_selection (r : Raster) (u : String) (w : Window)
    (hx0 : 0 ≤ pyInt w.col_off)
    (hx1 : pyInt w.col_off ≤ pyInt (w.col_off + w.width))
    (hx2 : pyInt (w.col_off + w.width) ≤ (r.nx : ℤ))
    (hy0 : 0 ≤ pyInt w.row_off)
    (hy1 : pyInt w.row_off ≤ pyInt (w.row_off + w.height))
    (hy2 : pyInt (w.row_off + w.height) ≤ (r.ny : ℤ)) :
    (read_raster_of r u none).xs = List.range r.nx ∧
    (read_raster_of r u none).ys = List.range r.ny ∧
    (read_raster_of r u (some w)).xs
      = List.range' (pyInt w.col_off).toNat
          ((pyInt (w.col_off + w.width)).toNat - (pyInt w.col_off).toNat) ∧
    (read_raster_of r u (some w)).ys
      = List.range' (pyInt w.row_off).toNat
          ((pyInt (w.row_off + w.height)).toNat - (pyInt w.row_off).toNat) := by
  refine ⟨rfl, rfl, ?_, ?_⟩
  · show pySlice (pyInt w.col_off) (pyInt (w.col_off + w.width)) (List.range r.nx) = _
    exact pySlice_range r.nx _ _ hx0 hx1 hx2
  · show pySlice (pyInt w.row_off) (pyInt (w.row_off + w.height)) (List.range r.ny) = _
    exact pySlice_range r.ny _ _ hy0 hy1 hy2

/-! Lemmas on the loop state flag and error propagation. -/

theorem read_raster_err (env : Env) (f : String) (w : Option Window) (e : PyErr)
    (h : env.openRaster f = .error e) : read_raster env f w = .error e := by
  simp [read_raster, h, Except.map]

theorem cubeStep_ok_flag (env : Env) (wv : Option Window)
    (st : Bool × Option Dataset × Option Dataset) (f : String)
    (st2 : Bool × Option Dataset × Option Dataset)
    (h : cubeStep env wv st f = .ok st2) : st2.1 = false := by
  obtain ⟨flag, dv, dc⟩ := st
  cases flag with
  | true =>
      simp only [cubeStep] at h
      cases hw : wv with
      | none => rw [hw] at h; exact absurd h (by simp [readVar, exbind_err])
      | some w =>
          rw [hw] at h
          simp only [readVar, exbind_ok] at h
          cases hx : read_raster env f (some w) with
          | error e => rw [hx] at h; exact absurd h (by simp [exbind_err])
          | ok x =>
              rw [hx] at h
              simp only [exbind_ok] at h
              rw [← Except.ok.inj h]
  | false =>
      simp only [cubeStep] at h
      cases hw : wv with
      | none => rw [hw] at h; exact absurd h (by simp [readVar, exbind_err])
      | some w =>
          rw [hw] at h
          simp only [readVar, exbind_ok] at h
          cases hx : read_raster env f (some w) with
          | error e => rw [hx] at h; exact absurd h (by simp [exbind_err])
          | ok x =>
              rw [hx] at h
              simp only [exbind_ok] at h
              cases hdc : dc with
              | none => rw [hdc] at h; exact absurd h (by simp [readVar, exbind_err])
              | some c =>
                  rw [hdc] at h
                  simp only [readVar, exbind_ok] at h
                  rw [← Except.ok.inj h]

theorem cubeLoop_flag (env : Env) (wv : Option Window) :
    ∀ (fs : List String) (st0 st : Bool × Option Dataset × Option Dataset), fs ≠ [] →
      fs.foldlM (cubeStep env wv) st0 = .ok st → st.1 = false := by
  intro fs
  induction fs with
  | nil => intro st0 st hne _; exact absurd rfl hne
  | cons f rest ih =>
      intro st0 st _ h
      rw [List.foldlM_cons] at h
      cases hstep : cubeStep env wv st0 f with
      | error e => rw [hstep] at h; exact absurd h (by simp [exbind_err])
      | ok st1 =>
          rw [hstep, exbind_ok] at h
          by_cases hrest : rest = []
          · subst hrest
            have h2 : (Except.ok st1 : Except PyErr (Bool × Option Dataset × Option Dataset))
                = .ok st := h
            exact (Except.ok.inj h2) ▸ cubeStep_ok_flag env wv st0 f st1 hstep
          · exact ih st1 st hrest h

theorem cubeLoop_false_err (env : Env) (w : Window) (rg : String → Raster) :
    ∀ (l1 : List String), (∀ g2 ∈ l1, env.openRaster g2 = .ok (rg g2)) →
    ∀ (f : String) (l2 : List String) (e : PyErr), env.openRaster f = .error e →
    ∀ (dv : Option Dataset) (c : Dataset),
    (l1 ++ f :: l2).foldlM (cubeStep env (some w)) (false, dv, some c) = .error e := by
  intro l1
  induction l1 with
  | nil =>
      intro _ f l2 e hf dv c
      rw [List.nil_append, List.foldlM_cons]
      simp [cubeStep, readVar, exbind_ok, read_raster_err env f (some w) e hf, exbind_err]
  | cons a rest ih =>
      intro h f l2 e hf dv c
      have ha := h a (List.mem_cons_self a rest)
      have hx := read_raster_ok env rg a (some w) ha
      rw [List.cons_append, List.foldlM_cons]
      simp only [cubeStep, readVar, exbind_ok, hx]
      exact ih (fun b hb => h b (List.mem_cons_of_mem a hb)) f l2 e hf _ _

theorem script_def (env : Env) :
    script env = cell7 env {} >>= fun s1 => cell9 env s1 >>= fun s2 =>
      cell13 env s2 >>= fun s3 => cell16 env s3 >>= fun s4 =>
      cell17 s4 >>= fun s5 => cell18 s5 := rfl

/-- C7: the notebook neither catches nor transforms exceptions: an empty
draw list raises IndexError out of the script, a failing catalog open, a
failing first raster open, and a failing raster open inside the read loop
each abort the script with exactly the error the library raised. -/
theorem C7_errors_propagate (env : Env) :
    (env.drawData = [] → script env = .error .indexError)
    ∧ (∀ e, env.drawData ≠ [] → env.openCatalog = .error e → script env = .error e)
    ∧ (∀ e cat f0 rest, env.drawData ≠ [] → env.openCatalog = .ok cat →
        fileStoreLoop cat target_collection target_item = f0 :: rest →
        env.openRaster f0 = .error e → script env = .error e)
    ∧ (∀ (e : PyErr) (cat : Catalog) (f0 : String) (src : Raster)
        (l1 : List String) (f : String) (l2 : List String) (rg : String → Raster),
        env.drawData ≠ [] → env.openCatalog = .ok cat →
        fileStoreLoop cat target_collection target_item = f0 :: (l1 ++ f :: l2) →
        env.openRaster f0 = .ok src →
        (∀ g2 ∈ l1, env.openRaster g2 = .ok (rg g2)) →
        env.openRaster f = .error e →
        script env = .error e) := by
  refine ⟨?_, ?_, ?_, ?_⟩
  · intro h
    have h7 : cell7 env {} = .error .indexError := by simp [cell7, h]
    rw [script_def, h7, exbind_err]
  · intro e hne hcat
    obtain ⟨g, hg⟩ : ∃ g, env.drawData.getLast? = some g := by
      cases hd : env.drawData.getLast? with
      | none => exact absurd (List.getLast?_eq_none_iff.mp hd) hne
      | some g => exact ⟨g, rfl⟩
    have h7 : cell7 env {} = .ok { geometry := some g, bounds := some (boundsOf g) } := by
      simp [cell7, hg]
    have h9 : cell9 env { geometry := some g, bounds := some (boundsOf g) }
        = .error e := by simp [cell9, hcat, Except.map]
    rw [script_def, h7, exbind_ok, h9, exbind_err]
  · intro e cat f0 rest hne hcat hL hrf
    obtain ⟨g, hg⟩ : ∃ g, env.drawData.getLast? = some g := by
      cases hd : env.drawData.getLast? with
      | none => exact absurd (List.getLast?_eq_none_iff.mp hd) hne
      | some g => exact ⟨g, rfl⟩
    have h7 : cell7 env {} = .ok { geometry := some g, bounds := some (boundsOf g) } := by
      simp [cell7, hg]
    have h9 : cell9 env { geometry := some g, bounds := some (boundsOf g) }
        = .ok { geometry := some g, bounds := some (boundsOf g)
                file_store := some (f0 :: rest) } := by
      simp [cell9, hcat, Except.map, hL]
    have h13 : cell13 env
        { geometry := some g, bounds := some (boundsOf g)
          file_store := some (f0 :: rest) } = .error e := by
      unfold cell13
      dsimp only [readVar, Bind.bind, Except.bind, List.head?]
      rw [hrf]
    rw [script_def, h7, exbind_ok, h9, exbind_ok, h13, exbind_err]
  · intro e cat f0 src l1 f l2 rg hne hcat hL hr hl1 hf
    obtain ⟨g, hg⟩ : ∃ g, env.drawData.getLast? = some g := by
      cases hd : env.drawData.getLast? with
      | none => exact absurd (List.getLast?_eq_none_iff.mp hd) hne
      | some g => exact ⟨g, rfl⟩
    have h7 : cell7 env {} = .ok { geometry := some g, bounds := some (boundsOf g) } := by
      simp [cell7, hg]
    have h9 : cell9 env { geometry := some g, bounds := some (boundsOf g) }
        = .ok { geometry := some g, bounds := some (boundsOf g)
                file_store := some (f0 :: (l1 ++ f :: l2)) } := by
      simp [cell9, hcat, Except.map, hL]
    have h13 : cell13 env
        { geometry := some g, bounds := some (boundsOf g)
          file_store := some (f0 :: (l1 ++ f :: l2)) }
        = .ok { geometry := some g, bounds := some (boundsOf g)
                file_store := some (f0 :: (l1 ++ f :: l2))
                window := some (from_bounds (boundsOf g).1 (boundsOf g).2.1
                  (boundsOf g).2.2.1 (boundsOf g).2.2.2 src.transform)
                stats := some ⟨src.statMin, src.statMax⟩ } := by
      unfold cell13
      dsimp only [readVar, Bind.bind, Except.bind, List.head?]
      rw [hr]
    have hloop : (f0 :: (l1 ++ f :: l2)).foldlM
        (cubeStep env (some (from_bounds (boundsOf g).1 (boundsOf g).2.1
          (boundsOf g).2.2.1 (boundsOf g).2.2.2 src.transform)))
        (true, none, none) = .error e := by
      rw [List.foldlM_cons]
      have hstep : cubeStep env (some (from_bounds (boundsOf g).1 (boundsOf g).2.1
            (boundsOf g).2.2.1 (boundsOf g).2.2.2 src.transform)) (true, none, none) f0
          = .ok (false, none, some (read_raster_of src f0
              (some (from_bounds (boundsOf g).1 (boundsOf g).2.1
                (boundsOf g).2.2.1 (boundsOf g).2.2.2 src.transform)))) := by
        simp [cubeStep, readVar, exbind_ok, read_raster, hr, Except.map]
      rw [hstep, exbind_ok]
      exact cubeLoop_false_err env _ rg l1 hl1 f l2 e hf none _
    have h16 : cell16 env
        { geometry := some g, bounds := some (boundsOf g)
          file_store := some (f0 :: (l1 ++ f :: l2))
          window := some (from_bounds (boundsOf g).1 (boundsOf g).2.1
            (boundsOf g).2.2.1 (boundsOf g).2.2.2 src.transform)
          stats := some ⟨src.statMin, src.statMax⟩ } = .error e := by
      unfold cell16
      dsimp only [readVar, Bind.bind, Except.bind]
      rw [hloop]
    rw [script_def, h7, exbind_ok, h9, exbind_ok, h13, exbind_ok, h16, exbind_err]

/-- C4, amended: the window computation and the viewer handoff are single
library calls, but the asset-listing step is a notebook-defined nested loop
whose conditional on the collection id decides whether a collection
contributes, and the read-and-concat step is a notebook-defined loop
governed by the first_run Boolean flag, which starts true and is false
after any nonempty loop. -/
theorem C4_amended_control_flow (env : Env) (wv : Option Window) :
    (([] : List String).foldlM (cubeStep env wv)
        ((true : Bool), (none : Option Dataset), (none : Option Dataset))
      = .ok (true, none, none))
    ∧ (∀ (fs : List String) (st0 st : Bool × Option Dataset × Option Dataset),
        fs ≠ [] → fs.foldlM (cubeStep env wv) st0 = .ok st → st.1 = false)
    ∧ (∀ (cat : Catalog) (c : Collection), c.id ≠ target_collection →
        fileStoreLoop (c :: cat) target_collection target_item
          = fileStoreLoop cat target_collection target_item)
    ∧ (∀ (cat : Catalog) (c : Collection), c.id = target_collection →
        fileStoreLoop (c :: cat) target_collection target_item
          = c.items.flatMap (itemHrefs target_item)
              ++ fileStoreLoop cat target_collection target_item) := by
  refine ⟨rfl, fun fs st0 st hne h => cubeLoop_flag env wv fs st0 st hne h, ?_, ?_⟩
  · intro cat c hc
    rw [fileStoreLoop_eq, fileStoreLoop_eq]
    simp [catalogHrefs, hc]
  · intro cat c hc
    rw [fileStoreLoop_eq, fileStoreLoop_eq]
    simp [catalogHrefs, hc]

/-! A concrete world: one drawn rectangle, one catalog entry, one 2 by 2
raster covering the year 2000, used to witness the theorems above. -/

def cURL : String :=
  "https://s3.example.org/wv_mcd19a2v061.seasconv.m.yearly_p75_1km_s_20000101_20001231_go_epsg.4326_v20230619.tif"

def cAffine : Affine := ⟨1, 0, -1, 1⟩

def cRaster : Raster := ⟨2, 2, [[1, 2], [3, 4]], cAffine, 1, 4⟩

def cGeom : Geom := ⟨[(0, 0), (1, 1)]⟩

def cWin : Window := ⟨0, 0, 1, 1⟩

def cDataset : Dataset := ⟨[20001231], [0], [0], [[[1]]]⟩

def cItem : Item := ⟨[⟨target_item, cURL⟩]⟩

def cCatalog : Catalog := [⟨target_collection, [cItem]⟩]

def cEnv : Env := ⟨[cGeom], .ok cCatalog, fun _ => .ok cRaster⟩

def cS1 : NBState := { geometry := some cGeom, bounds := some (0, 0, 1, 1) }

def cS2 : NBState := { cS1 with file_store := some [cURL] }

def cS3 : NBState := { cS2 with window := some cWin, stats := some ⟨1, 4⟩ }

def cS4 : NBState :=
  { cS3 with first_run := some false, d := none, datacube := some cDataset }

def cS5 : NBState := { cS4 with viewerRange := some (1, 4) }

def cRun : NBState := { cS5 with viewed := some cDataset }

theorem rasterDates_cURL : rasterDates cURL = [20001231] := by decide

theorem boundsOf_cGeom : boundsOf cGeom = (0, 0, 1, 1) := by
  simp [boundsOf, cGeom, List.foldl]

theorem from_bounds_c : from_bounds 0 0 1 1 cAffine = cWin := by
  simp [from_bounds, cAffine, cWin]

theorem read_c : read_raster_of cRaster cURL (some cWin) = cDataset := by
  have hx0 : pyInt cWin.col_off = 0 := by norm_num [cWin, pyInt]
  have hx1 : pyInt (cWin.col_off + cWin.width) = 1 := by norm_num [cWin, pyInt]
  have hy0 : pyInt cWin.row_off = 0 := by norm_num [cWin, pyInt]
  have hy1 : pyInt (cWin.row_off + cWin.height) = 1 := by norm_num [cWin, pyInt]
  unfold read_raster_of
  dsimp only
  rw [hx0, hx1, hy0, hy1, rasterDates_cURL]
  decide

theorem fileStoreLoop_c :
    fileStoreLoop cCatalog target_collection target_item = [cURL] := by decide

theorem stepLoop_c : [cURL].foldlM (cubeStep cEnv (some cWin))
    ((true : Bool), (none : Option Dataset), (none : Option Dataset))
    = .ok (false, none, some cDataset) := by
  rw [List.foldlM_cons]
  have hstep : cubeStep cEnv (some cWin) (true, none, none) cURL
      = .ok (false, none, some cDataset) := by
    simp [cubeStep, readVar, exbind_ok, read_raster, cEnv, Except.map, read_c]
  rw [hstep, exbind_ok]
  rfl

theorem cell7_c : cell7 cEnv {} = .ok cS1 := by
  simp [cell7, cEnv, cS1, boundsOf_cGeom]

theorem cell9_c : cell9 cEnv cS1 = .ok cS2 := by
  simp [cell9, cEnv, cS1, cS2, Except.map, fileStoreLoop_c]

theorem cell13_c : cell13 cEnv cS2 = .ok cS3 := by
  unfold cell13
  dsimp only [cS2, cS1, readVar, Bind.bind, Except.bind, List.head?, cEnv, cRaster]
  rw [from_bounds_c]
  rfl

theorem cell16_c : cell16 cEnv cS3 = .ok cS4 := by
  unfold cell16
  dsimp only [cS3, cS2, cS1, readVar, Bind.bind, Except.bind]
  rw [stepLoop_c]
  rfl

theorem cell17_c : cell17 cS4 = .ok cS5 := by
  unfold cell17
  dsimp only [cS4, cS3, cS2, cS1, readVar, Bind.bind, Except.bind]
  rfl

theorem cell18_c : cell18 cS5 = .ok cRun := by
  unfold cell18
  dsimp only [cS5, cS4, cS3, cS2, cS1, readVar, Bind.bind, Except.bind]
  rfl

theorem script_c : script cEnv = .ok cRun := by
  rw [script_def, cell7_c, exbind_ok, cell9_c, exbind_ok, cell13_c, exbind_ok,
    cell16_c, exbind_ok, cell17_c, exbind_ok, cell18_c]

/-! Counterexamples and witnesses. -/

/-- a window reaching left of the raster, for the C5 counterexample. -/
def cexWin : Window := ⟨-10, 0, 1, 1⟩

/-- integer interval from a (inclusive) to b (exclusive) as a list. -/
def intRange (a b : ℤ) : List ℤ := (List.range (b - a).toNat).map (fun k => a + (k : ℤ))

/-- C5 as stated is false: for a window with col_off = -10 and width = 1 on
a 2-pixel-wide raster, Python slice semantics select no x position at all,
not the positions from int col_off to int (col_off + width): negative
truncated offsets wrap and clamp instead of addressing pixels directly. -/
theorem C5_counterexample :
    ¬ (((read_raster_of cRaster cURL (some cexWin)).xs.map (fun i => (i : ℤ)))
        = intRange (pyInt cexWin.col_off) (pyInt (cexWin.col_off + cexWin.width))) := by
  have ha : pyInt cexWin.col_off = -10 := by
    rw [show cexWin.col_off = ((-10 : ℤ) : ℚ) by norm_num [cexWin], pyInt_intCast]
  have hb : pyInt (cexWin.col_off + cexWin.width) = -9 := by
    rw [show cexWin.col_off + cexWin.width = ((-9 : ℤ) : ℚ) by norm_num [cexWin],
      pyInt_intCast]
  have hLHS : (read_raster_of cRaster cURL (some cexWin)).xs = [] := by
    show pySlice (pyInt cexWin.col_off) (pyInt (cexWin.col_off + cexWin.width))
      (List.range cRaster.nx) = []
    rw [ha, hb]
    decide
  intro hcl
  rw [hLHS, ha, hb] at hcl
  exact absurd hcl (by decide)

/-- C5, amended, at the concrete raster and window: no window keeps the
whole grid, and the in-range window selects exactly positions 0 to 1. -/
theorem C5_windowed_selection_witness :
    (read_raster_of cRaster cURL none).xs = List.range cRaster.nx ∧
    (read_raster_of cRaster cURL none).ys = List.range cRaster.ny ∧
    (read_raster_of cRaster cURL (some cWin)).xs
      = List.range' (pyInt cWin.col_off).toNat
          ((pyInt (cWin.col_off + cWin.width)).toNat - (pyInt cWin.col_off).toNat) ∧
    (read_raster_of cRaster cURL (some cWin)).ys
      = List.range' (pyInt cWin.row_off).toNat
          ((pyInt (cWin.row_off + cWin.height)).toNat - (pyInt cWin.row_off).toNat) :=
  C5_windowed_selection cRaster cURL cWin
    (by norm_num [cWin, pyInt]) (by norm_num [cWin, pyInt])
    (by norm_num [cWin, cRaster, pyInt])
    (by norm_num [cWin, pyInt]) (by norm_num [cWin, pyInt])
    (by norm_num [cWin, cRaster, pyInt])

/-- C4 as stated is false: the concatenation step behaves differently under
the two values of the notebook-defined first_run flag (it is a two-state
machine, raising NameError when the flag is lowered but no datacube is
assigned), and the asset-listing step is conditional on the collection id. -/
theorem C4_counterexample :
    cubeStep cEnv (some cWin) (false, none, none) cURL = .error .nameError
    ∧ cubeStep cEnv (some cWin) (true, none, none) cURL
        ≠ cubeStep cEnv (some cWin) (false, none, none) cURL
    ∧ fileStoreLoop [⟨"another.collection", [cItem]⟩] target_collection target_item = []
    ∧ fileStoreLoop [⟨target_collection, [cItem]⟩] target_collection target_item
        = [cURL] := by
  have hfalse : cubeStep cEnv (some cWin) (false, none, none) cURL
      = .error .nameError := by
    simp [cubeStep, readVar, exbind_ok, exbind_err, read_raster, cEnv, Except.map]
  have htrue : cubeStep cEnv (some cWin) (true, none, none) cURL
      = .ok (false, none, some (read_raster_of cRaster cURL (some cWin))) := by
    simp [cubeStep, readVar, exbind_ok, read_raster, cEnv, Except.map]
  refine ⟨hfalse, ?_, by decide, by decide⟩
  rw [htrue, hfalse]
  simp

theorem C4_amended_witness :
    ((false : Bool), (none : Option Dataset), some cDataset).1 = false
    ∧ fileStoreLoop [⟨"another.collection", [cItem]⟩, ⟨target_collection, [cItem]⟩]
        target_collection target_item
      = fileStoreLoop [⟨target_collection, [cItem]⟩] target_collection target_item :=
  ⟨(C4_amended_control_flow cEnv (some cWin)).2.1 [cURL] (true, none, none)
      (false, none, some cDataset) (by simp) stepLoop_c,
   (C4_amended_control_flow cEnv (some cWin)).2.2.1 [⟨target_collection, [cItem]⟩]
      ⟨"another.collection", [cItem]⟩ (by decide)⟩

theorem C1_time_stack_witness :
    ∃ dc, cRun.viewed = some dc ∧ dc.time = [cURL].flatMap rasterDates ∧
      dc.time.length = [cURL].length :=
  C1_time_stack cEnv cRun [cURL] (fun _ => cRaster) script_c rfl
    (fun _ _ => rfl)
    (fun f hf => by
      rw [List.mem_singleton] at hf
      subst hf
      rw [rasterDates_cURL]
      rfl)

theorem C2_window_once_witness :
    ∃ fs f0 src w b st,
      cRun.file_store = some fs ∧ fs.head? = some f0 ∧
      cEnv.openRaster f0 = .ok src ∧
      cRun.bounds = some b ∧
      w = from_bounds b.1 b.2.1 b.2.2.1 b.2.2.2 src.transform ∧
      cRun.window = some w ∧
      fs.foldlM (cubeStep cEnv (some w)) (true, none, none) = .ok st ∧
      cRun.datacube = st.2.2 :=
  C2_window_once cEnv cRun script_c

theorem C6_linear_pipeline_witness :
    ∃ g cat f0 src st,
      cEnv.drawData.getLast? = some g ∧
      cEnv.openCatalog = .ok cat ∧
      cRun.bounds = some (boundsOf g) ∧
      cRun.file_store = some (fileStoreLoop cat target_collection target_item) ∧
      (fileStoreLoop cat target_collection target_item).head? = some f0 ∧
      cEnv.openRaster f0 = .ok src ∧
      cRun.window = some (from_bounds (boundsOf g).1 (boundsOf g).2.1 (boundsOf g).2.2.1
        (boundsOf g).2.2.2 src.transform) ∧
      cRun.stats = some ⟨src.statMin, src.statMax⟩ ∧
      (fileStoreLoop cat target_collection target_item).foldlM
        (cubeStep cEnv cRun.window) (true, none, none) = .ok st ∧
      cRun.viewerRange = some (src.statMin, src.statMax) ∧
      ∃ dc, st.2.2 = some dc ∧ cRun.datacube = some dc ∧ cRun.viewed = some dc :=
  C6_linear_pipeline cEnv cRun script_c

/-- environment in which opening the catalog raises. -/
def cEnvFail : Env := ⟨[cGeom], .error (.libError "connection refused"), fun _ => .ok cRaster⟩

theorem C7_errors_propagate_witness :
    script cEnvFail = .error (.libError "connection refused") :=
  (C7_errors_propagate cEnvFail).2.1 (.libError "connection refused") (by simp [cEnvFail]) rfl

theorem C8_loop_is_left_fold_witness :
    ∃ dv, [cURL].foldlM (cubeStep cEnv (some cWin))
        ((true : Bool), (none : Option Dataset), (none : Option Dataset))
      = .ok (false, dv,
          some ((([] : List String).map (readOf (fun _ => cRaster) cWin)).foldl concatTime
            (readOf (fun _ => cRaster) cWin cURL))) :=
  (C8_loop_is_left_fold cEnv cWin (fun _ => cRaster) [cURL] (fun _ _ => rfl)).2
    cURL [] rfl

/-- a second drawn geometry, to witness that only the last one counts. -/
def cGeom2 : Geom := ⟨[(2, 3), (5, 7)]⟩

def cEnv2 : Env := ⟨[cGeom, cGeom2], .ok cCatalog, fun _ => .ok cRaster⟩

theorem C9_last_drawn_geometry_witness :
    cell7 cEnv2 {} = .ok { ({} : NBState) with
      geometry := some cGeom2, bounds := some (boundsOf cGeom2) } :=
  (C9_last_drawn_geometry cEnv2 {}).2 [cGeom] cGeom2 rfl

theorem C10_datacube_frame_witness :
    cS4.bounds = cS3.bounds ∧ cS4.file_store = cS3.file_store ∧
    cS4.window = cS3.window ∧ cS4.stats = cS3.stats ∧ cS4.geometry = cS3.geometry ∧
    cS4.viewerRange = cS3.viewerRange ∧ cS4.viewed = cS3.viewed :=
  C10_datacube_frame cEnv cS3 cS4 cell16_c

end EOTut
